import Mathlib

/-!
# Session lifecycle of the chat server (src/server.js)

A shallow embedding of the in-memory session map `chatSessions` and of the
request handlers and the hourly cleanup timer that read and write it.

Modelling decisions, all taken from the source:

* Request fields (`message`, `sessionId`), turn contents and the fields of a
  provider error are JavaScript values.  `JsVal` models the JSON scalars; a
  number is a safe integer, which JavaScript holds exactly and prints in plain
  decimal (other numbers, arrays and objects are outside the model).
  Truthiness (`!message`, `sessionId && ...`) follows JavaScript.
* `chatSessions` is a JavaScript `Map`: insertion ordered, keys compared by
  SameValueZero, which on `JsVal` is structural equality.
* A transcript is a JavaScript array held by reference: `messages.push` in the
  message handler changes the array that the map holds.  The embedding writes
  the map after every push.
* `Date.now()` is a natural number of milliseconds and is an input of the
  operations that read it.  The completion call is an input function
  (`Provider`); a reply that arrives is taken to be well formed.
* Each handler runs to completion before the next operation starts.
-/

namespace ChatServer

/-! ## JavaScript values -/

/-- The safe integers: absolute value at most `Number.MAX_SAFE_INTEGER`, that
is 2^53 - 1.  A JavaScript number holds each of them exactly, and ToString
prints it in plain decimal (exponent form starts at 1e21). -/
abbrev SafeInt := { n : Int // n.natAbs ≤ 9007199254740991 }

/-- JSON scalar values as they reach the handlers. -/
inductive JsVal where
  | undefined
  | null
  | bool (b : Bool)
  | num (n : SafeInt)
  | str (s : String)
  deriving DecidableEq

/-- JavaScript ToBoolean: what `!v` and `v && ...` test. -/
def JsVal.truthy : JsVal → Bool
  | .undefined => false
  | .null => false
  | .bool b => b
  | .num n => n.val != 0
  | .str s => s != ""

/-- JavaScript ToString on the modelled values; a safe integer prints as its
decimal digits, with a leading `-` when negative. -/
def JsVal.toJsString : JsVal → String
  | .undefined => "undefined"
  | .null => "null"
  | .bool true => "true"
  | .bool false => "false"
  | .num ⟨.ofNat n, _⟩ => Nat.repr n
  | .num ⟨.negSucc n, _⟩ => "-" ++ Nat.repr (n + 1)
  | .str s => s

/-- StrWhiteSpaceChar of ECMAScript: WhiteSpace and LineTerminator code points. -/
def isStrWhiteSpace (c : Char) : Bool :=
  c.toNat ∈ [0x9, 0xA, 0xB, 0xC, 0xD, 0x20, 0xA0, 0x1680, 0x2000, 0x2001, 0x2002, 0x2003,
    0x2004, 0x2005, 0x2006, 0x2007, 0x2008, 0x2009, 0x200A, 0x2028, 0x2029, 0x202F, 0x205F,
    0x3000, 0xFEFF]

/-- Value of a character as a digit: 0-9, then a-z and A-Z as 10-35. -/
def digitValue (c : Char) : Option Nat :=
  let n := c.toNat
  if 48 ≤ n ∧ n ≤ 57 then some (n - 48)
  else if 97 ≤ n ∧ n ≤ 122 then some (n - 87)
  else if 65 ≤ n ∧ n ≤ 90 then some (n - 55)
  else none

/-- Whether `c` is a digit of radix `R`. -/
def isRadixDigit (R : Nat) (c : Char) : Bool :=
  match digitValue c with
  | some d => d < R
  | none => false

/-- Step 4-5 of parseInt: an optional leading sign; `true` means negative. -/
def stripSign : List Char → Bool × List Char
  | '-' :: rest => (true, rest)
  | '+' :: rest => (false, rest)
  | cs => (false, cs)

/-- Step 10 of parseInt with no radix argument: `0x` or `0X` selects radix 16. -/
def stripHex : List Char → Nat × List Char
  | '0' :: 'x' :: rest => (16, rest)
  | '0' :: 'X' :: rest => (16, rest)
  | cs => (10, cs)

/-- Mathematical integer value of a digit string in radix `R`. -/
def digitsToNat (R : Nat) (ds : List Char) : Nat :=
  ds.foldl (fun acc c => acc * R + (digitValue c).getD 0) 0

/-- JavaScript `parseInt(input)` with no radix argument; `none` is NaN.  The
result is kept as an exact integer: a comparison with a safe integer such as
`Date.now() - 3600000` has the same outcome on the rounded double. -/
def parseInt (input : String) : Option Int :=
  let S := input.data.dropWhile isStrWhiteSpace
  let (negative, S1) := stripSign S
  let (R, S2) := stripHex S1
  let Z := S2.takeWhile (isRadixDigit R)
  if Z.isEmpty then none
  else
    let mathInt : Int := digitsToNat R Z
    some (if negative then -mathInt else mathInt)

/-! ## Data model -/

/-- Role tag of a turn: the three string constants the handlers write. -/
inductive Role where
  | system
  | user
  | assistant
  deriving DecidableEq

/-- One element of a transcript: `{ role, content }`. -/
structure Turn where
  role : Role
  content : JsVal
  deriving DecidableEq

/-- The system message both creation paths put at the head of a transcript. -/
def systemTurn : Turn :=
  { role := .system,
    content := .str "You are a helpful, friendly, and knowledgeable AI assistant. Provide clear, concise, and accurate responses." }

/-- Association list behind a `Map`, in insertion order: first entry under a key. -/
def lookup : List (JsVal × List Turn) → JsVal → Option (List Turn)
  | [], _ => none
  | (k, v) :: rest, key => if k = key then some v else lookup rest key

/-- `Map.set` on the entries: replace in place when the key exists, else append. -/
def upsert : List (JsVal × List Turn) → JsVal → List Turn → List (JsVal × List Turn)
  | [], key, val => [(key, val)]
  | (k, v) :: rest, key, val =>
    if k = key then (key, val) :: rest else (k, v) :: upsert rest key val

/-- `Map.delete` on the entries. -/
def remove (es : List (JsVal × List Turn)) (key : JsVal) : List (JsVal × List Turn) :=
  es.filter (fun e => e.1 ≠ key)

/-- The map `chatSessions`: session identifier to transcript. -/
structure Store where
  entries : List (JsVal × List Turn)
  deriving DecidableEq

namespace Store

/-- The map at process start: `new Map()`. -/
def empty : Store := ⟨[]⟩

/-- Models `chatSessions.get(key)`; `none` is `undefined`. -/
def get (s : Store) (key : JsVal) : Option (List Turn) := lookup s.entries key

/-- Models `chatSessions.has(key)`. -/
def has (s : Store) (key : JsVal) : Bool := (s.get key).isSome

/-- Models `chatSessions.set(key, val)`. -/
def set (s : Store) (key : JsVal) (val : List Turn) : Store := ⟨upsert s.entries key val⟩

/-- Models `chatSessions.delete(key)`. -/
def delete (s : Store) (key : JsVal) : Store := ⟨remove s.entries key⟩

/-- Keys in iteration order, as `chatSessions.entries()` yields them. -/
def keys (s : Store) : List JsVal := s.entries.map Prod.fst

end Store

/-! ## Environment, provider and responses -/

/-- The two `process.env` settings the server reads; `none` is unset. -/
structure Env where
  OPENAI_API_KEY : Option String
  OPENAI_MODEL : Option String

/-- The expression `process.env.OPENAI_MODEL || 'gpt-3.5-turbo'`. -/
def configuredModel (env : Env) : String :=
  match env.OPENAI_MODEL with
  | some m => if m ≠ "" then m else "gpt-3.5-turbo"
  | none => "gpt-3.5-turbo"

/-- Argument of `openai.chat.completions.create` in the message handler. -/
structure CompletionRequest where
  model : String
  messages : List Turn
  temperature : ℚ
  max_tokens : Nat
  top_p : Nat
  frequency_penalty : Nat
  presence_penalty : Nat
  deriving DecidableEq

/-- The fields the handler reads from a completion: `choices[0].message.content`,
`model` and `usage.total_tokens`. -/
structure Completion where
  content : JsVal
  model : String
  total_tokens : Nat
  deriving DecidableEq

/-- The fields the catch block reads from a thrown error. -/
structure ProviderError where
  status : JsVal
  message : JsVal
  deriving DecidableEq

/-- The completion call: it either throws or returns a completion. -/
abbrev Provider := CompletionRequest → Except ProviderError Completion

/-- JSON bodies sent by the handlers, with the HTTP status where it is not 200.
A field that is `undefined` is absent from the JSON. -/
inductive Response where
  | initOk (sessionId : String) (model : String) (message : String)
  | messageOk (response : JsVal) (sessionId : JsVal) (model : String) (tokensUsed : Nat)
  | cleared (message : String)
  | history (messages : List Turn)
  | health (message : String) (apiKeyConfigured : Bool) (model : String) (timestamp : Nat)
  | fail (status : Nat) (error : String) (details : JsVal)
  deriving DecidableEq

/-- What one run of a handler leaves behind: the map, the response, and the
completion requests it issued. -/
structure Handled where
  store : Store
  response : Response
  calls : List CompletionRequest

/-! ## Handlers -/

/-- Handler of `POST /api/chat/init`; `now` is the value of `Date.now()`. -/
def initSession (now : Nat) (s : Store) : Handled :=
  let sessionId := Nat.repr now
  let messages := [systemTurn]
  { store := s.set (.str sessionId) messages,
    response := .initOk sessionId "gpt-3.5-turbo" "Chat session initialized",
    calls := [] }

/-- The catch block of the message handler. -/
def errorResponse (error : ProviderError) : Response :=
  if error.status = .num ⟨401, by decide⟩ then
    .fail 401 "Invalid API key. Please check your OpenAI API key." error.message
  else if error.status = .num ⟨429, by decide⟩ then
    .fail 429 "Rate limit exceeded. Please try again later." error.message
  else if error.status = .num ⟨500, by decide⟩ then
    .fail 500 "OpenAI server error. Please try again." error.message
  else
    .fail 500 "Failed to get response from AI" error.message

/-- Handler of `POST /api/chat/message` with body `{ message, sessionId }`. -/
def handleMessage (env : Env) (create : Provider) (s : Store)
    (message sessionId : JsVal) : Handled :=
  if !message.truthy then
    { store := s, response := .fail 400 "Message is required" .undefined, calls := [] }
  else
    -- get or create conversation history
    let (s1, messages) :=
      match s.get sessionId with
      | some m => (s, m)
      | none => (s.set sessionId [systemTurn], [systemTurn])
    -- messages.push(user turn): the array held by the map grows
    let messages1 := messages ++ [{ role := .user, content := message }]
    let s2 := s1.set sessionId messages1
    let request : CompletionRequest :=
      { model := configuredModel env, messages := messages1, temperature := 9 / 10,
        max_tokens := 2048, top_p := 1, frequency_penalty := 0, presence_penalty := 0 }
    match create request with
    | .error error => { store := s2, response := errorResponse error, calls := [request] }
    | .ok completion =>
      let assistantMessage := completion.content
      -- messages.push(assistant turn)
      let messages2 := messages1 ++ [{ role := .assistant, content := assistantMessage }]
      let s3 := s2.set sessionId messages2
      -- chatSessions.set(sessionId, messages)
      let s4 := s3.set sessionId messages2
      { store := s4,
        response := .messageOk assistantMessage sessionId completion.model
          completion.total_tokens,
        calls := [request] }

/-- Handler of `POST /api/chat/clear` with body `{ sessionId }`. -/
def clearSession (s : Store) (sessionId : JsVal) : Handled :=
  { store := if sessionId.truthy && s.has sessionId then s.delete sessionId else s,
    response := .cleared "Chat session cleared",
    calls := [] }

/-- Handler of `GET /api/chat/history/:sessionId`; a route parameter is a string. -/
def getHistory (s : Store) (sessionId : String) : Response :=
  match s.get (.str sessionId) with
  | none => .fail 404 "Session not found" .undefined
  | some messages => .history (messages.filter (fun m => m.role ≠ .system))

/-- Handler of `GET /api/health`; `now` stands for the reported time. -/
def health (env : Env) (now : Nat) : Response :=
  let apiKeySet :=
    match env.OPENAI_API_KEY with
    | some k => k ≠ "" && k ≠ "your_openai_api_key_here"
    | none => false
  .health "Server is running" apiKeySet (configuredModel env) now

/-- The test `parseInt(sessionId) < oneHourAgo`; a NaN compares false. -/
def olderThan (sessionId : JsVal) (cutoff : Int) : Bool :=
  match parseInt sessionId.toJsString with
  | some t => t < cutoff
  | none => false

/-- Body of the cleanup timer with the retention window as a parameter: each
key the map held is visited once and deleted when it parses below the cutoff. -/
def sweep (maxAge now : Nat) (s : Store) : Store :=
  let cutoff : Int := (now : Int) - (maxAge : Int)
  s.keys.foldl (fun acc sessionId =>
    if olderThan sessionId cutoff then acc.delete sessionId else acc) s

/-- The timer callback of the source: the window is `60 * 60 * 1000`. -/
def cleanup (now : Nat) (s : Store) : Store := sweep (60 * 60 * 1000) now s

/-! ## Operation sequences -/

/-- One operation on the map, with the inputs it reads. -/
inductive Op where
  | init (now : Nat)
  | message (create : Provider) (message sessionId : JsVal)
  | clear (sessionId : JsVal)
  | sweep (maxAge now : Nat)

/-- The map after one operation. -/
def step (env : Env) (s : Store) : Op → Store
  | .init now => (initSession now s).store
  | .message create message sessionId => (handleMessage env create s message sessionId).store
  | .clear sessionId => (clearSession s sessionId).store
  | .sweep maxAge now => sweep maxAge now s

/-- The map after a sequence of operations, run in order. -/
def run (env : Env) (ops : List Op) (s : Store) : Store := ops.foldl (step env) s

/-! ## Auxiliary definitions for the statements -/

/-- A provider whose call throws `error` whatever the request. -/
def failingWith (error : ProviderError) : Provider := fun _ => .error error

/-- A provider whose call returns `completion` whatever the request. -/
def replyingWith (completion : Completion) : Provider := fun _ => .ok completion

/-- The user turn the message handler pushes. -/
def userTurn (message : JsVal) : Turn := { role := .user, content := message }

/-- The assistant turn the message handler pushes. -/
def assistantTurn (content : JsVal) : Turn := { role := .assistant, content := content }

/-- A decimal digit character, `0` to `9`. -/
def isDecimal (c : Char) : Bool := decide (48 ≤ c.toNat) && decide (c.toNat ≤ 57)

/-- The shape of a stored transcript: a first turn of role system, and no
system turn after it. -/
def WellFormed : List Turn → Prop
  | [] => False
  | first :: rest => first.role = .system ∧ ∀ m ∈ rest, m.role ≠ .system

/-- Every transcript the map holds is well formed. -/
def StoreOk (s : Store) : Prop := ∀ e ∈ s.entries, WellFormed e.2

/-- Messages sent one after the other under one identifier, each answered by
the provider with the paired completion. -/
def sendAll (env : Env) (sessionId : JsVal) : List (JsVal × Completion) → Store → Store
  | [], s => s
  | (message, completion) :: rest, s =>
    sendAll env sessionId rest
      (handleMessage env (replyingWith completion) s message sessionId).store

/-- The turns of a list of exchanges: user text, then assistant reply, in order. -/
def exchangeTurns : List (JsVal × Completion) → List Turn
  | [] => []
  | (message, completion) :: rest =>
    userTurn message :: assistantTurn completion.content :: exchangeTurns rest

/-! ## Lemmas on the entry list -/

theorem lookup_upsert_self (es : List (JsVal × List Turn)) (key : JsVal) (val : List Turn) :
    lookup (upsert es key val) key = some val := by
  induction es with
  | nil => simp [upsert, lookup]
  | cons e rest ih =>
    obtain ⟨k, v⟩ := e
    by_cases h : k = key
    · simp [upsert, lookup, h]
    · simp [upsert, lookup, h, ih]

theorem lookup_upsert_ne (es : List (JsVal × List Turn)) (key other : JsVal) (val : List Turn)
    (hne : other ≠ key) : lookup (upsert es key val) other = lookup es other := by
  induction es with
  | nil => simp [upsert, lookup, Ne.symm hne]
  | cons e rest ih =>
    obtain ⟨k, v⟩ := e
    by_cases h : k = key
    · subst h
      simp [upsert, lookup, Ne.symm hne]
    · by_cases h2 : k = other
      · subst h2
        simp [upsert, lookup, h]
      · simp [upsert, lookup, h, h2, ih]

theorem lookup_remove_self (es : List (JsVal × List Turn)) (key : JsVal) :
    lookup (remove es key) key = none := by
  induction es with
  | nil => simp [remove, lookup]
  | cons e rest ih =>
    obtain ⟨k, v⟩ := e
    by_cases h : k = key
    · simpa [remove, h] using ih
    · simpa [remove, lookup, h] using ih

theorem lookup_remove_ne (es : List (JsVal × List Turn)) (key other : JsVal)
    (hne : other ≠ key) : lookup (remove es key) other = lookup es other := by
  induction es with
  | nil => simp [remove, lookup]
  | cons e rest ih =>
    obtain ⟨k, v⟩ := e
    by_cases h : k = key
    · subst h
      simpa [remove, lookup, Ne.symm hne] using ih
    · by_cases h2 : k = other
      · subst h2
        simp [remove, lookup, h]
      · simpa [remove, lookup, h, h2] using ih

theorem lookup_mem (es : List (JsVal × List Turn)) (key : JsVal) (val : List Turn)
    (h : lookup es key = some val) : (key, val) ∈ es := by
  induction es with
  | nil => simp [lookup] at h
  | cons e rest ih =>
    obtain ⟨k, v⟩ := e
    by_cases hk : k = key
    · subst hk
      simp [lookup] at h
      simp [h]
    · simp [lookup, hk] at h
      exact List.mem_cons_of_mem _ (ih h)

theorem mem_upsert (es : List (JsVal × List Turn)) (key : JsVal) (val : List Turn)
    (e : JsVal × List Turn) (h : e ∈ upsert es key val) : e ∈ es ∨ e = (key, val) := by
  induction es with
  | nil => simpa [upsert] using h
  | cons e0 rest ih =>
    obtain ⟨k, v⟩ := e0
    by_cases hk : k = key
    · simp [upsert, hk] at h
      rcases h with h | h
      · exact Or.inr h
      · exact Or.inl (List.mem_cons_of_mem _ h)
    · simp [upsert, hk] at h
      rcases h with h | h
      · exact Or.inl (by simp [h])
      · rcases ih h with h1 | h1
        · exact Or.inl (List.mem_cons_of_mem _ h1)
        · exact Or.inr h1

theorem mem_remove (es : List (JsVal × List Turn)) (key : JsVal)
    (e : JsVal × List Turn) (h : e ∈ remove es key) : e ∈ es := by
  simp [remove] at h
  exact h.1

namespace Store

theorem get_set_self (s : Store) (key : JsVal) (val : List Turn) :
    (s.set key val).get key = some val := lookup_upsert_self s.entries key val

theorem get_set_ne (s : Store) (key other : JsVal) (val : List Turn) (hne : other ≠ key) :
    (s.set key val).get other = s.get other := lookup_upsert_ne s.entries key other val hne

theorem get_delete_self (s : Store) (key : JsVal) : (s.delete key).get key = none :=
  lookup_remove_self s.entries key

theorem get_delete_ne (s : Store) (key other : JsVal) (hne : other ≠ key) :
    (s.delete key).get other = s.get other := lookup_remove_ne s.entries key other hne

end Store

/-! ## The message handler: rejected input and failed completion calls -/

theorem handleMessage_falsy (env : Env) (create : Provider) (s : Store)
    (message sessionId : JsVal) (h : message.truthy = false) :
    handleMessage env create s message sessionId =
      { store := s, response := .fail 400 "Message is required" .undefined, calls := [] } := by
  simp [handleMessage, h]

theorem handleMessage_error_store (env : Env) (create : Provider) (s : Store)
    (message sessionId : JsVal) (error : ProviderError) (h : message.truthy = true)
    (hfail : ∀ request, create request = .error error) :
    (handleMessage env create s message sessionId).store =
      (match s.get sessionId with
        | some _ => s
        | none => s.set sessionId [systemTurn]).set sessionId
        ((s.get sessionId).getD [systemTurn] ++ [userTurn message]) ∧
    (handleMessage env create s message sessionId).response = errorResponse error := by
  cases hg : s.get sessionId <;> simp [handleMessage, h, hg, hfail, userTurn]

theorem handleMessage_ok_store (env : Env) (create : Provider) (s : Store)
    (message sessionId : JsVal) (completion : Completion) (h : message.truthy = true)
    (hok : ∀ request, create request = .ok completion) :
    (handleMessage env create s message sessionId).store =
      (((match s.get sessionId with
        | some _ => s
        | none => s.set sessionId [systemTurn]).set sessionId
        ((s.get sessionId).getD [systemTurn] ++ [userTurn message])).set sessionId
        ((s.get sessionId).getD [systemTurn] ++ [userTurn message] ++
          [assistantTurn completion.content])).set sessionId
        ((s.get sessionId).getD [systemTurn] ++ [userTurn message] ++
          [assistantTurn completion.content]) := by
  cases hg : s.get sessionId <;> simp [handleMessage, h, hg, hok, userTurn, assistantTurn]

theorem handleMessage_ok_get (env : Env) (create : Provider) (s : Store)
    (message sessionId : JsVal) (completion : Completion) (h : message.truthy = true)
    (hok : ∀ request, create request = .ok completion) :
    (handleMessage env create s message sessionId).store.get sessionId =
      some ((s.get sessionId).getD [systemTurn] ++ [userTurn message] ++
        [assistantTurn completion.content]) := by
  rw [handleMessage_ok_store env create s message sessionId completion h hok]
  exact Store.get_set_self _ _ _

/-- C3: a message that is falsy (the empty string, a missing field, and the
other falsy values) is answered with HTTP 400 "Message is required"; the
handler issues no completion request and returns the map it was given. -/
theorem C3_empty_message_rejected (env : Env) (create : Provider) (s : Store)
    (message sessionId : JsVal) (h : message.truthy = false) :
    (handleMessage env create s message sessionId).response =
        .fail 400 "Message is required" .undefined ∧
    (handleMessage env create s message sessionId).calls = [] ∧
    (handleMessage env create s message sessionId).store = s := by
  rw [handleMessage_falsy env create s message sessionId h]
  exact ⟨rfl, rfl, rfl⟩

/-- C3 at the empty string, on a map that holds one session. -/
theorem C3_empty_message_rejected_witness :
    (JsVal.str "").truthy = false ∧
    (handleMessage ⟨none, none⟩ (replyingWith ⟨.str "hello", "m1", 5⟩)
        (initSession 7 Store.empty).store (.str "") (.str "7")).response =
        .fail 400 "Message is required" .undefined ∧
    (handleMessage ⟨none, none⟩ (replyingWith ⟨.str "hello", "m1", 5⟩)
        (initSession 7 Store.empty).store (.str "") (.str "7")).calls = [] ∧
    (handleMessage ⟨none, none⟩ (replyingWith ⟨.str "hello", "m1", 5⟩)
        (initSession 7 Store.empty).store (.str "") (.str "7")).store =
      (initSession 7 Store.empty).store :=
  ⟨by decide, C3_empty_message_rejected ⟨none, none⟩ (replyingWith ⟨.str "hello", "m1", 5⟩)
    (initSession 7 Store.empty).store (.str "") (.str "7") (by decide)⟩

/-- C10: when the completion call throws `error`, the handler answers with an
error response chosen by `error.status` alone: the number 401 gives HTTP 401,
429 gives HTTP 429, 500 gives HTTP 500 "OpenAI server error", anything else
(a missing status included) gives HTTP 500 "Failed to get response from AI";
the details are `error.message` in every case. -/
theorem C10_provider_error_mapping (env : Env) (create : Provider) (s : Store)
    (message sessionId : JsVal) (error : ProviderError) (h : message.truthy = true)
    (hfail : ∀ request, create request = .error error) :
    (error.status = .num ⟨401, by decide⟩ →
      (handleMessage env create s message sessionId).response =
        .fail 401 "Invalid API key. Please check your OpenAI API key." error.message) ∧
    (error.status = .num ⟨429, by decide⟩ →
      (handleMessage env create s message sessionId).response =
        .fail 429 "Rate limit exceeded. Please try again later." error.message) ∧
    (error.status = .num ⟨500, by decide⟩ →
      (handleMessage env create s message sessionId).response =
        .fail 500 "OpenAI server error. Please try again." error.message) ∧
    (error.status ≠ .num ⟨401, by decide⟩ → error.status ≠ .num ⟨429, by decide⟩ → error.status ≠ .num ⟨500, by decide⟩ →
      (handleMessage env create s message sessionId).response =
        .fail 500 "Failed to get response from AI" error.message) := by
  rw [(handleMessage_error_store env create s message sessionId error h hfail).2]
  refine ⟨?_, ?_, ?_, ?_⟩
  · intro h1
    simp [errorResponse, h1]
  · intro h1
    simp [errorResponse, h1]
  · intro h1
    simp [errorResponse, h1]
  · intro h1 h2 h3
    simp [errorResponse, h1, h2, h3]

/-- C10 at an error without a status: the unknown-error branch. -/
theorem C10_provider_error_mapping_witness :
    (JsVal.str "hi").truthy = true ∧
    (handleMessage ⟨none, none⟩ (failingWith ⟨.undefined, .str "socket hang up"⟩)
        Store.empty (.str "hi") (.str "s1")).response =
      .fail 500 "Failed to get response from AI" (.str "socket hang up") :=
  ⟨by decide,
    (C10_provider_error_mapping ⟨none, none⟩ (failingWith ⟨.undefined, .str "socket hang up"⟩)
      Store.empty (.str "hi") (.str "s1") ⟨.undefined, .str "socket hang up"⟩ (by decide)
      (fun _ => rfl)).2.2.2 (by decide) (by decide) (by decide)⟩

/-- C1 as stated fails: after a failed completion call the map is not the map
before it.  On the empty map a session appears under the identifier, and a
stored transcript is one turn longer. -/
theorem C1_failed_call_changes_store :
    (handleMessage ⟨none, none⟩ (failingWith ⟨.num ⟨500, by decide⟩, .str "down"⟩)
        Store.empty (.str "hi") (.str "s1")).store =
      ⟨[(.str "s1", [systemTurn, userTurn (.str "hi")])]⟩ ∧
    (handleMessage ⟨none, none⟩ (failingWith ⟨.num ⟨500, by decide⟩, .str "down"⟩)
        Store.empty (.str "hi") (.str "s1")).store ≠ Store.empty ∧
    (initSession 7 Store.empty).store.get (.str "7") = some [systemTurn] ∧
    (handleMessage ⟨none, none⟩ (failingWith ⟨.num ⟨500, by decide⟩, .str "down"⟩)
        (initSession 7 Store.empty).store (.str "hi") (.str "7")).store.get (.str "7") =
      some [systemTurn, userTurn (.str "hi")] := by
  decide

/-- C1 amended: when the completion call throws, the map afterwards holds
under the identifier the transcript stored before (the system turn alone when
none was stored) with the user turn appended, and every other identifier maps
to what it mapped to before. -/
theorem C1_failed_call_keeps_user_turn (env : Env) (create : Provider) (s : Store)
    (message sessionId : JsVal) (error : ProviderError) (h : message.truthy = true)
    (hfail : ∀ request, create request = .error error) :
    (handleMessage env create s message sessionId).store.get sessionId =
      some ((s.get sessionId).getD [systemTurn] ++ [userTurn message]) ∧
    ∀ other, other ≠ sessionId →
      (handleMessage env create s message sessionId).store.get other = s.get other := by
  rw [(handleMessage_error_store env create s message sessionId error h hfail).1]
  refine ⟨Store.get_set_self _ _ _, ?_⟩
  intro other hne
  rw [Store.get_set_ne _ _ _ _ hne]
  cases hg : s.get sessionId with
  | none => exact Store.get_set_ne _ _ _ _ hne
  | some m => rfl

/-- C1 amended, at a failed call on a session that holds one exchange. -/
theorem C1_failed_call_keeps_user_turn_witness :
    (JsVal.str "again").truthy = true ∧
    (handleMessage ⟨none, none⟩ (failingWith ⟨.num ⟨429, by decide⟩, .str "slow down"⟩)
        ⟨[(.str "7", [systemTurn, userTurn (.str "hi"), assistantTurn (.str "hello")])]⟩
        (.str "again") (.str "7")).store.get (.str "7") =
      some ((Store.get
        ⟨[(.str "7", [systemTurn, userTurn (.str "hi"), assistantTurn (.str "hello")])]⟩
        (.str "7")).getD [systemTurn] ++ [userTurn (.str "again")]) :=
  ⟨by decide,
    (C1_failed_call_keeps_user_turn ⟨none, none⟩ (failingWith ⟨.num ⟨429, by decide⟩, .str "slow down"⟩)
      ⟨[(.str "7", [systemTurn, userTurn (.str "hi"), assistantTurn (.str "hello")])]⟩
      (.str "again") (.str "7") ⟨.num ⟨429, by decide⟩, .str "slow down"⟩ (by decide) (fun _ => rfl)).1⟩

/-! ## The model name -/

/-- C9 fails on the code: with `OPENAI_MODEL` set to `gpt-4` the init handler
still reports `gpt-3.5-turbo`, while the message handler passes `gpt-4` to the
completion call and the health probe reports `gpt-4`. -/
theorem C9_init_model_ignores_setting :
    (initSession 7 Store.empty).response =
      .initOk "7" "gpt-3.5-turbo" "Chat session initialized" ∧
    configuredModel ⟨none, some "gpt-4"⟩ = "gpt-4" ∧
    (handleMessage ⟨none, some "gpt-4"⟩ (replyingWith ⟨.str "hello", "gpt-4-0613", 5⟩)
        (initSession 7 Store.empty).store (.str "hi") (.str "7")).calls.map
      CompletionRequest.model = ["gpt-4"] ∧
    health ⟨none, some "gpt-4"⟩ 7 = .health "Server is running" false "gpt-4" 7 := by
  decide

/-! ## Clearing a session -/

/-- C4 as stated fails: a session the message handler stored under the empty
string, or under a missing identifier, is still in the map after the clear
handler ran with that identifier. -/
theorem C4_clear_keeps_falsy_key :
    (handleMessage ⟨none, none⟩ (replyingWith ⟨.str "hello", "m1", 5⟩)
        Store.empty (.str "hi") (.str "")).store.get (.str "") =
      some [systemTurn, userTurn (.str "hi"), assistantTurn (.str "hello")] ∧
    (clearSession (handleMessage ⟨none, none⟩ (replyingWith ⟨.str "hello", "m1", 5⟩)
        Store.empty (.str "hi") (.str "")).store (.str "")).store.get (.str "") =
      some [systemTurn, userTurn (.str "hi"), assistantTurn (.str "hello")] ∧
    (clearSession (handleMessage ⟨none, none⟩ (replyingWith ⟨.str "hello", "m1", 5⟩)
        Store.empty (.str "hi") .undefined).store .undefined).store.get .undefined =
      some [systemTurn, userTurn (.str "hi"), assistantTurn (.str "hello")] := by
  decide

/-- C4 amended: for every truthy identifier (a non-empty string in particular)
the map holds nothing under it after the clear handler, and the history
handler then answers HTTP 404 "Session not found"; for every falsy identifier
(the empty string, a missing identifier, null, 0, false) the clear handler
returns the map it was given, so a session stored under it is not removed. -/
theorem C4_clear_then_history_not_found (s : Store) (sessionId : JsVal) :
    (sessionId.truthy = true →
      (clearSession s sessionId).store.get sessionId = none ∧
      ∀ id : String, sessionId = .str id →
        getHistory (clearSession s sessionId).store id =
          .fail 404 "Session not found" .undefined) ∧
    (sessionId.truthy = false → (clearSession s sessionId).store = s) := by
  constructor
  · intro h
    have hget : (clearSession s sessionId).store.get sessionId = none := by
      cases hg : s.get sessionId with
      | none => simp [clearSession, h, Store.has, hg]
      | some m =>
        simp [clearSession, h, Store.has, hg]
        exact Store.get_delete_self s sessionId
    refine ⟨hget, ?_⟩
    intro id hid
    subst hid
    simp [getHistory, hget]
  · intro h
    simp [clearSession, h]

/-- C4 amended, at a session that holds one exchange and at the empty string. -/
theorem C4_clear_then_history_not_found_witness :
    (JsVal.str "7").truthy = true ∧
    (clearSession ⟨[(.str "7", [systemTurn, userTurn (.str "hi")])]⟩
      (.str "7")).store.get (.str "7") = none ∧
    getHistory (clearSession ⟨[(.str "7", [systemTurn, userTurn (.str "hi")])]⟩
      (.str "7")).store "7" = .fail 404 "Session not found" .undefined ∧
    (JsVal.str "").truthy = false ∧
    (clearSession ⟨[(.str "", [systemTurn, userTurn (.str "hi")])]⟩ (.str "")).store =
      ⟨[(.str "", [systemTurn, userTurn (.str "hi")])]⟩ :=
  ⟨by decide,
    ((C4_clear_then_history_not_found ⟨[(.str "7", [systemTurn, userTurn (.str "hi")])]⟩
      (.str "7")).1 (by decide)).1,
    ((C4_clear_then_history_not_found ⟨[(.str "7", [systemTurn, userTurn (.str "hi")])]⟩
      (.str "7")).1 (by decide)).2 "7" rfl,
    by decide,
    (C4_clear_then_history_not_found ⟨[(.str "", [systemTurn, userTurn (.str "hi")])]⟩
      (.str "")).2 (by decide)⟩

/-! ## Identifiers minted by the init handler -/

theorem digitChar_facts : ∀ d, d < 10 →
    isDecimal (Nat.digitChar d) = true ∧ digitValue (Nat.digitChar d) = some d := by
  decide

theorem isDecimal_facts (c : Char) (h : isDecimal c = true) :
    isStrWhiteSpace c = false ∧ c ≠ '-' ∧ c ≠ '+' ∧ c ≠ 'x' ∧ c ≠ 'X' ∧
      isRadixDigit 10 c = true := by
  simp only [isDecimal, Bool.and_eq_true, decide_eq_true_eq] at h
  obtain ⟨h1, h2⟩ := h
  refine ⟨?_, ?_, ?_, ?_, ?_, ?_⟩
  · simp [isStrWhiteSpace]
    omega
  · rintro rfl
    simp at h1
  · rintro rfl
    simp at h1
  · rintro rfl
    simp at h2
  · rintro rfl
    simp at h2
  · simp [isRadixDigit, digitValue, h1, h2]
    omega

theorem toDigitsCore_decimal (fuel : Nat) : ∀ (n : Nat) (acc : List Char),
    (∀ c ∈ acc, isDecimal c = true) →
    ∀ c ∈ Nat.toDigitsCore 10 fuel n acc, isDecimal c = true := by
  induction fuel with
  | zero => intro n acc hacc; simpa [Nat.toDigitsCore] using hacc
  | succ fuel ih =>
    intro n acc hacc
    have hd := (digitChar_facts (n % 10) (Nat.mod_lt _ (by decide))).1
    have hacc2 : ∀ c ∈ Nat.digitChar (n % 10) :: acc, isDecimal c = true := by
      intro c hc
      rcases List.mem_cons.mp hc with h | h
      · rw [h]; exact hd
      · exact hacc c h
    simp only [Nat.toDigitsCore]
    split
    · exact hacc2
    · exact ih _ _ hacc2

theorem toDigitsCore_ne_nil (fuel : Nat) : ∀ (n : Nat) (acc : List Char),
    acc ≠ [] → Nat.toDigitsCore 10 fuel n acc ≠ [] := by
  induction fuel with
  | zero => intro n acc hacc; simpa [Nat.toDigitsCore] using hacc
  | succ fuel ih =>
    intro n acc _
    simp only [Nat.toDigitsCore]
    split
    · simp
    · exact ih _ _ (by simp)

theorem toDigitsCore_value (fuel : Nat) : ∀ (n : Nat) (acc : List Char), n < fuel →
    (Nat.toDigitsCore 10 fuel n acc).foldl (fun a c => a * 10 + (digitValue c).getD 0) 0 =
      acc.foldl (fun a c => a * 10 + (digitValue c).getD 0) n := by
  induction fuel with
  | zero => intro n acc h; omega
  | succ fuel ih =>
    intro n acc h
    have hd := (digitChar_facts (n % 10) (Nat.mod_lt _ (by decide))).2
    simp only [Nat.toDigitsCore]
    split
    · rename_i h0
      have hn : n % 10 = n := by omega
      simp only [List.foldl_cons, hd, Option.getD_some, Nat.zero_mul, Nat.zero_add]
      rw [hn]
    · rename_i h0
      have hlt : n / 10 < fuel := by omega
      rw [ih _ _ hlt]
      simp only [List.foldl, hd, Option.getD_some]
      congr 1
      omega

theorem parseInt_repr (n : Nat) : parseInt (Nat.repr n) = some (n : Int) := by
  have hdec : ∀ c ∈ Nat.toDigits 10 n, isDecimal c = true :=
    toDigitsCore_decimal _ _ _ (by simp)
  have hval : digitsToNat 10 (Nat.toDigits 10 n) = n := by
    have := toDigitsCore_value (n + 1) n [] (by omega)
    simpa [digitsToNat, Nat.toDigits] using this
  have hne : Nat.toDigits 10 n ≠ [] := by
    simp only [Nat.toDigits, Nat.toDigitsCore]
    split
    · simp
    · exact toDigitsCore_ne_nil _ _ _ (by simp)
  generalize hds : Nat.toDigits 10 n = ds at hdec hval hne
  have hdata : (Nat.repr n).data = ds := by simp [Nat.repr, hds, List.asString]
  match ds, hne with
  | c :: rest, _ =>
    have hc := isDecimal_facts c (hdec c (by simp))
    have hdrop : List.dropWhile isStrWhiteSpace (c :: rest) = c :: rest := by
      simp [List.dropWhile, hc.1]
    have hsign : stripSign (c :: rest) = (false, c :: rest) := by
      unfold stripSign
      split
      · rename_i heq; simp at heq; exact absurd heq.1 hc.2.1
      · rename_i heq; simp at heq; exact absurd heq.1 hc.2.2.1
      · rfl
    have hhex : stripHex (c :: rest) = (10, c :: rest) := by
      unfold stripHex
      split
      · rename_i heq
        simp at heq
        have := isDecimal_facts 'x' (hdec 'x' (by rw [heq.2]; simp))
        exact absurd rfl this.2.2.2.1
      · rename_i heq
        simp at heq
        have := isDecimal_facts 'X' (hdec 'X' (by rw [heq.2]; simp))
        exact absurd rfl this.2.2.2.2.1
      · rfl
    have htake : List.takeWhile (isRadixDigit 10) (c :: rest) = c :: rest := by
      rw [List.takeWhile_eq_self_iff]
      intro x hx
      exact (isDecimal_facts x (hdec x hx)).2.2.2.2.2
    simp only [parseInt, hdata, hdrop, hsign, hhex, htake]
    simp [hval]

theorem repr_injective (t1 t2 : Nat) (h : Nat.repr t1 = Nat.repr t2) : t1 = t2 := by
  have h1 := parseInt_repr t1
  rw [h, parseInt_repr t2] at h1
  have h2 : (t2 : Int) = (t1 : Int) := Option.some.inj h1
  omega

/-- C5 as stated fails: two init calls that read the same millisecond return
the same identifier, and the second replaces the transcript the first
session has accumulated by a fresh one. -/
theorem C5_same_millisecond_same_id :
    (initSession 7 Store.empty).response =
      .initOk "7" "gpt-3.5-turbo" "Chat session initialized" ∧
    (handleMessage ⟨none, none⟩ (replyingWith ⟨.str "hello", "m1", 5⟩)
        (initSession 7 Store.empty).store (.str "hi") (.str "7")).store.get (.str "7") =
      some [systemTurn, userTurn (.str "hi"), assistantTurn (.str "hello")] ∧
    (initSession 7 (handleMessage ⟨none, none⟩ (replyingWith ⟨.str "hello", "m1", 5⟩)
        (initSession 7 Store.empty).store (.str "hi") (.str "7")).store).response =
      .initOk "7" "gpt-3.5-turbo" "Chat session initialized" ∧
    (initSession 7 (handleMessage ⟨none, none⟩ (replyingWith ⟨.str "hello", "m1", 5⟩)
        (initSession 7 Store.empty).store (.str "hi") (.str "7")).store).store.get (.str "7") =
      some [systemTurn] := by
  decide

/-- C5 amended: the identifier an init call returns is the decimal rendering
of its clock reading, which parseInt reads back, so two calls return the same
identifier exactly when their readings are equal.  A call at a different
reading leaves the session stored under the earlier reading as it is; in every
case the map afterwards holds under the returned identifier the system turn
alone, whatever it held there before (a second call in the same millisecond
replaces the stored transcript by a fresh one). -/
theorem C5_ids_distinct_when_readings_differ (t1 t2 : Nat) (s1 s2 : Store) :
    (initSession t1 s1).response =
      .initOk (Nat.repr t1) "gpt-3.5-turbo" "Chat session initialized" ∧
    (initSession t2 s2).response =
      .initOk (Nat.repr t2) "gpt-3.5-turbo" "Chat session initialized" ∧
    (Nat.repr t1 = Nat.repr t2 ↔ t1 = t2) ∧
    parseInt (Nat.repr t1) = some (t1 : Int) ∧
    parseInt (Nat.repr t2) = some (t2 : Int) ∧
    (t1 ≠ t2 →
      (initSession t2 s2).store.get (.str (Nat.repr t1)) = s2.get (.str (Nat.repr t1))) ∧
    (initSession t2 s2).store.get (.str (Nat.repr t2)) = some [systemTurn] := by
  refine ⟨rfl, rfl, ⟨repr_injective t1 t2, fun heq => by rw [heq]⟩, parseInt_repr t1,
    parseInt_repr t2, ?_, Store.get_set_self _ _ _⟩
  intro h
  have hk : JsVal.str (Nat.repr t1) ≠ JsVal.str (Nat.repr t2) := by
    intro heq
    exact h (repr_injective t1 t2 (JsVal.str.inj heq))
  exact Store.get_set_ne _ _ _ _ hk

/-- C5 amended, at two consecutive milliseconds. -/
theorem C5_ids_distinct_when_readings_differ_witness :
    (7 : Nat) ≠ 8 ∧ Nat.repr 7 ≠ Nat.repr 8 ∧
    (initSession 8 (initSession 7 Store.empty).store).store.get (.str (Nat.repr 7)) =
      (initSession 7 Store.empty).store.get (.str (Nat.repr 7)) ∧
    (initSession 8 (initSession 7 Store.empty).store).store.get (.str (Nat.repr 8)) =
      some [systemTurn] :=
  ⟨by decide,
    fun heq => absurd ((C5_ids_distinct_when_readings_differ 7 8 Store.empty
      (initSession 7 Store.empty).store).2.2.1.mp heq) (by decide),
    (C5_ids_distinct_when_readings_differ 7 8 Store.empty
      (initSession 7 Store.empty).store).2.2.2.2.2.1 (by decide),
    (C5_ids_distinct_when_readings_differ 7 8 Store.empty
      (initSession 7 Store.empty).store).2.2.2.2.2.2⟩

/-! ## The expiry sweep -/

theorem lookup_filter_key (p : JsVal → Bool) (es : List (JsVal × List Turn)) (key : JsVal) :
    lookup (es.filter (fun e => p e.1)) key = if p key then lookup es key else none := by
  induction es with
  | nil => simp [lookup]
  | cons e rest ih =>
    obtain ⟨k, v⟩ := e
    by_cases hk : k = key
    · subst hk
      by_cases hp : p k
      · simp [List.filter, hp, lookup]
      · simpa [List.filter, hp, lookup] using ih
    · by_cases hp : p k
      · simpa [List.filter, hp, lookup, hk] using ih
      · simpa [List.filter, hp, lookup, hk] using ih

theorem sweep_fold_entries (cutoff : Int) : ∀ (ks : List JsVal) (acc : Store),
    (ks.foldl (fun acc sessionId =>
      if olderThan sessionId cutoff then acc.delete sessionId else acc) acc).entries =
    acc.entries.filter (fun e => !(olderThan e.1 cutoff && decide (e.1 ∈ ks))) := by
  intro ks
  induction ks with
  | nil => intro acc; simp
  | cons k ks ih =>
    intro acc
    rw [List.foldl_cons, ih]
    by_cases hold : olderThan k cutoff = true
    · simp only [hold, if_true, Store.delete, remove, List.filter_filter]
      apply List.filter_congr
      intro e _
      by_cases hek : e.1 = k
      · simp [hek, hold]
      · simp [hek]
    · simp only [hold, Bool.false_eq_true, if_false]
      apply List.filter_congr
      intro e _
      by_cases hek : e.1 = k
      · simp [hek, hold]
      · simp [hek]

theorem sweep_entries (maxAge now : Nat) (s : Store) :
    (sweep maxAge now s).entries =
      s.entries.filter (fun e => !olderThan e.1 ((now : Int) - (maxAge : Int))) := by
  simp only [sweep]
  rw [sweep_fold_entries]
  apply List.filter_congr
  intro e he
  have hmem : e.1 ∈ s.keys := List.mem_map_of_mem Prod.fst he
  simp [hmem]

theorem sweep_get (maxAge now : Nat) (s : Store) (key : JsVal) :
    (sweep maxAge now s).get key =
      if olderThan key ((now : Int) - (maxAge : Int)) then none else s.get key := by
  simp only [Store.get, sweep_entries]
  rw [lookup_filter_key (fun k => !olderThan k ((now : Int) - (maxAge : Int)))]
  cases olderThan key ((now : Int) - (maxAge : Int)) <;> simp

/-- C6 as stated fails: with `maxAge = 0` the sweep leaves in the map a session
that the init handler minted at the reading of the sweep, and a session the
message handler created under the caller's identifier `unknown-id`; the
hourly timer keeps the latter at every later reading too. -/
theorem C6_sweep_zero_keeps_sessions :
    sweep 0 100 (initSession 100 Store.empty).store = (initSession 100 Store.empty).store ∧
    sweep 0 100 (initSession 100 Store.empty).store ≠ Store.empty ∧
    sweep 0 100 (handleMessage ⟨none, none⟩ (replyingWith ⟨.str "hello", "m1", 5⟩)
        Store.empty (.str "hi") (.str "unknown-id")).store =
      ⟨[(.str "unknown-id",
        [systemTurn, userTurn (.str "hi"), assistantTurn (.str "hello")])]⟩ ∧
    cleanup 5000000000000 (handleMessage ⟨none, none⟩ (replyingWith ⟨.str "hello", "m1", 5⟩)
        Store.empty (.str "hi") (.str "unknown-id")).store =
      ⟨[(.str "unknown-id",
        [systemTurn, userTurn (.str "hi"), assistantTurn (.str "hello")])]⟩ := by
  decide

/-- C6 amended: after the sweep the map holds no session whose identifier
parseInt reads as a time before `now - maxAge`, and a session whose identifier
reads as a time at or after it is kept with its transcript.  For the
identifiers the init handler mints the reading is the creation time, so a
session created at `created` is removed exactly when
`created < now - maxAge`; with `maxAge = 0` that is `created < now`, and the
hourly timer removes every minted session more than 3600000 ms old. -/
theorem C6_sweep_removes_by_parsed_time (maxAge now : Nat) (s : Store) :
    (∀ (sessionId : JsVal) (t : Int), parseInt sessionId.toJsString = some t →
      t < (now : Int) - (maxAge : Int) → (sweep maxAge now s).get sessionId = none) ∧
    (∀ (sessionId : JsVal) (t : Int), parseInt sessionId.toJsString = some t →
      (now : Int) - (maxAge : Int) ≤ t →
      (sweep maxAge now s).get sessionId = s.get sessionId) ∧
    (∀ created : Nat, (sweep maxAge now s).get (.str (Nat.repr created)) =
      if (created : Int) < (now : Int) - (maxAge : Int) then none
      else s.get (.str (Nat.repr created))) ∧
    (∀ created : Nat, created + 3600000 < now →
      (cleanup now s).get (.str (Nat.repr created)) = none) := by
  have hminted : ∀ (m n : Nat) (created : Nat),
      (sweep m n s).get (.str (Nat.repr created)) =
        if (created : Int) < (n : Int) - (m : Int) then none
        else s.get (.str (Nat.repr created)) := by
    intro m n created
    rw [sweep_get]
    simp [olderThan, JsVal.toJsString, parseInt_repr]
  refine ⟨?_, ?_, hminted maxAge now, ?_⟩
  · intro sessionId t hp hlt
    rw [sweep_get]
    simp [olderThan, hp, hlt]
  · intro sessionId t hp hle
    rw [sweep_get]
    simp [olderThan, hp, not_lt.mpr hle]
  · intro created hlt
    simp only [cleanup]
    rw [hminted]
    have : (created : Int) < (now : Int) - ((60 * 60 * 1000 : Nat) : Int) := by
      push_cast
      omega
    rw [if_pos this]

/-- C6 amended, at a session minted at reading 7 and swept at reading 100. -/
theorem C6_sweep_removes_by_parsed_time_witness :
    parseInt (JsVal.str "7").toJsString = some 7 ∧ (7 : Int) < ((100 : Nat) : Int) - ((0 : Nat) : Int) ∧
    (sweep 0 100 (initSession 7 Store.empty).store).get (.str "7") = none :=
  ⟨by decide, by decide,
    (C6_sweep_removes_by_parsed_time 0 100 (initSession 7 Store.empty).store).1
      (.str "7") 7 (by decide) (by decide)⟩

/-! ## The transcript invariant -/

theorem wellFormed_system : WellFormed [systemTurn] := by
  simp [WellFormed, systemTurn]

theorem wellFormed_append (t : List Turn) (m : Turn) (ht : WellFormed t)
    (hm : m.role ≠ .system) : WellFormed (t ++ [m]) := by
  cases t with
  | nil => exact absurd ht (by simp [WellFormed])
  | cons first rest =>
    refine ⟨ht.1, ?_⟩
    intro x hx
    rcases List.mem_append.mp hx with h | h
    · exact ht.2 x h
    · rw [List.mem_singleton.mp h]
      exact hm

theorem storeOk_get (s : Store) (key : JsVal) (t : List Turn) (hs : StoreOk s)
    (h : s.get key = some t) : WellFormed t :=
  hs (key, t) (lookup_mem s.entries key t h)

theorem storeOk_set (s : Store) (key : JsVal) (val : List Turn) (hs : StoreOk s)
    (hv : WellFormed val) : StoreOk (s.set key val) := by
  intro e he
  rcases mem_upsert s.entries key val e he with h | h
  · exact hs e h
  · rw [h]
    exact hv

theorem storeOk_delete (s : Store) (key : JsVal) (hs : StoreOk s) :
    StoreOk (s.delete key) :=
  fun e he => hs e (mem_remove s.entries key e he)

theorem storeOk_sweep (maxAge now : Nat) (s : Store) (hs : StoreOk s) :
    StoreOk (sweep maxAge now s) := by
  intro e he
  rw [sweep_entries] at he
  exact hs e (List.mem_filter.mp he).1

theorem storeOk_previous (s : Store) (key : JsVal) (hs : StoreOk s) :
    WellFormed ((s.get key).getD [systemTurn]) := by
  cases hg : s.get key with
  | none => exact wellFormed_system
  | some t => exact storeOk_get s key t hs hg

theorem storeOk_handleMessage (env : Env) (create : Provider) (s : Store)
    (message sessionId : JsVal) (hs : StoreOk s) :
    StoreOk (handleMessage env create s message sessionId).store := by
  by_cases h : message.truthy = true
  · have hprev := storeOk_previous s sessionId hs
    have huser := wellFormed_append _ (userTurn message) hprev (by simp [userTurn])
    have hs1 : StoreOk (match s.get sessionId with
        | some _ => s
        | none => s.set sessionId [systemTurn]) := by
      cases s.get sessionId with
      | none => exact storeOk_set s sessionId _ hs wellFormed_system
      | some m => exact hs
    have hs2 := storeOk_set _ sessionId _ hs1 huser
    cases hc : create
        { model := configuredModel env,
          messages := (s.get sessionId).getD [systemTurn] ++ [userTurn message],
          temperature := 9 / 10, max_tokens := 2048, top_p := 1, frequency_penalty := 0,
          presence_penalty := 0 } with
    | error err =>
      have hstore : (handleMessage env create s message sessionId).store =
          (match s.get sessionId with
            | some _ => s
            | none => s.set sessionId [systemTurn]).set sessionId
            ((s.get sessionId).getD [systemTurn] ++ [userTurn message]) := by
        simp only [userTurn] at hc
        cases hg : s.get sessionId <;> simp [hg] at hc <;>
          simp [handleMessage, h, hg, hc, userTurn]
      rw [hstore]
      exact hs2
    | ok completion =>
      have hstore : (handleMessage env create s message sessionId).store =
          (((match s.get sessionId with
            | some _ => s
            | none => s.set sessionId [systemTurn]).set sessionId
            ((s.get sessionId).getD [systemTurn] ++ [userTurn message])).set sessionId
            ((s.get sessionId).getD [systemTurn] ++ [userTurn message] ++
              [assistantTurn completion.content])).set sessionId
            ((s.get sessionId).getD [systemTurn] ++ [userTurn message] ++
              [assistantTurn completion.content]) := by
        simp only [userTurn] at hc
        cases hg : s.get sessionId <;> simp [hg] at hc <;>
          simp [handleMessage, h, hg, hc, userTurn, assistantTurn]
      have hassist := wellFormed_append _ (assistantTurn completion.content) huser
        (by simp [assistantTurn])
      rw [hstore]
      exact storeOk_set _ sessionId _ (storeOk_set _ sessionId _ hs2 hassist) hassist
  · have hf : message.truthy = false := by simpa using h
    rw [handleMessage_falsy env create s message sessionId hf]
    exact hs

theorem storeOk_step (env : Env) (s : Store) (op : Op) (hs : StoreOk s) :
    StoreOk (step env s op) := by
  cases op with
  | init now => exact storeOk_set s _ _ hs wellFormed_system
  | message create message sessionId => exact storeOk_handleMessage env create s _ _ hs
  | clear sessionId =>
    simp only [step, clearSession]
    split
    · exact storeOk_delete s sessionId hs
    · exact hs
  | sweep maxAge now => exact storeOk_sweep maxAge now s hs

theorem storeOk_run (env : Env) (ops : List Op) : ∀ s : Store, StoreOk s →
    StoreOk (run env ops s) := by
  induction ops with
  | nil => intro s hs; exact hs
  | cons op rest ih =>
    intro s hs
    exact ih (step env s op) (storeOk_step env s op hs)

theorem storeOk_empty : StoreOk Store.empty := by
  intro e he
  simp [Store.empty] at he

theorem wellFormed_filter (t : List Turn) (ht : WellFormed t) :
    t.filter (fun m => m.role ≠ .system) = t.tail := by
  cases t with
  | nil => exact absurd ht (by simp [WellFormed])
  | cons first rest =>
    have h1 : first.role = .system := ht.1
    have h2 : ∀ m ∈ rest, m.role ≠ .system := ht.2
    simp only [List.tail_cons]
    rw [List.filter_cons_of_neg (by simp [h1])]
    rw [List.filter_eq_self]
    intro m hm
    simpa using h2 m hm

/-- C7: in the map reached from the empty map by any sequence of init,
message (with any provider outcome), clear and sweep operations, every stored
transcript is a first turn of role system followed by turns none of which has
role system. -/
theorem C7_transcripts_start_with_one_system_turn (env : Env) (ops : List Op)
    (sessionId : JsVal) (t : List Turn)
    (h : (run env ops Store.empty).get sessionId = some t) :
    ∃ first rest, t = first :: rest ∧ first.role = .system ∧
      ∀ m ∈ rest, m.role ≠ .system := by
  have hwf := storeOk_get _ sessionId t (storeOk_run env ops Store.empty storeOk_empty) h
  cases t with
  | nil => exact absurd hwf (by simp [WellFormed])
  | cons first rest => exact ⟨first, rest, rfl, hwf.1, hwf.2⟩

/-- C7 after an init, a failed message, a successful message on another
identifier, a clear and a sweep. -/
theorem C7_transcripts_start_with_one_system_turn_witness :
    (run ⟨none, none⟩
      [.init 7, .message (failingWith ⟨.num ⟨500, by decide⟩, .str "down"⟩) (.str "hi") (.str "7"),
        .message (replyingWith ⟨.str "hello", "m1", 5⟩) (.str "hi") (.str "abc"),
        .clear (.str "abc"), .sweep 3600000 8] Store.empty).get (.str "7") =
      some [systemTurn, userTurn (.str "hi")] ∧
    ∃ first rest, [systemTurn, userTurn (.str "hi")] = first :: rest ∧ first.role = .system ∧
      ∀ m ∈ rest, m.role ≠ .system :=
  ⟨by decide,
    C7_transcripts_start_with_one_system_turn ⟨none, none⟩
      [.init 7, .message (failingWith ⟨.num ⟨500, by decide⟩, .str "down"⟩) (.str "hi") (.str "7"),
        .message (replyingWith ⟨.str "hello", "m1", 5⟩) (.str "hi") (.str "abc"),
        .clear (.str "abc"), .sweep 3600000 8] (.str "7")
      [systemTurn, userTurn (.str "hi")] (by decide)⟩

/-! ## Reading the history -/

/-- C8: on every map reached from the empty map, the history handler answers
HTTP 404 "Session not found" exactly when the map holds nothing under the
identifier; otherwise it returns the stored transcript without its first turn
(the system turn), the other turns in their order, and the filter on the role
yields the same list as dropping the first turn. -/
theorem C8_history_drops_leading_system_turn (env : Env) (ops : List Op) (id : String) :
    (getHistory (run env ops Store.empty) id = .fail 404 "Session not found" .undefined ↔
      (run env ops Store.empty).get (.str id) = none) ∧
    ∀ t, (run env ops Store.empty).get (.str id) = some t →
      getHistory (run env ops Store.empty) id = .history t.tail ∧
      t.filter (fun m => m.role ≠ .system) = t.tail ∧
      ∃ first, t = first :: t.tail ∧ first.role = .system := by
  constructor
  · cases hg : (run env ops Store.empty).get (.str id) with
    | none => simp [getHistory, hg]
    | some t => simp [getHistory, hg]
  · intro t hg
    have hwf := storeOk_get _ _ t (storeOk_run env ops Store.empty storeOk_empty) hg
    have hfilter := wellFormed_filter t hwf
    refine ⟨?_, hfilter, ?_⟩
    · simp only [getHistory, hg]
      rw [hfilter]
    · cases t with
      | nil => exact absurd hwf (by simp [WellFormed])
      | cons first rest => exact ⟨first, rfl, hwf.1⟩

/-- C8 on a session that holds one exchange. -/
theorem C8_history_drops_leading_system_turn_witness :
    (run ⟨none, none⟩
      [.init 7, .message (replyingWith ⟨.str "hello", "m1", 5⟩) (.str "hi") (.str "7")]
      Store.empty).get (.str "7") =
      some [systemTurn, userTurn (.str "hi"), assistantTurn (.str "hello")] ∧
    getHistory (run ⟨none, none⟩
      [.init 7, .message (replyingWith ⟨.str "hello", "m1", 5⟩) (.str "hi") (.str "7")]
      Store.empty) "7" =
      .history [systemTurn, userTurn (.str "hi"), assistantTurn (.str "hello")].tail :=
  ⟨by decide,
    ((C8_history_drops_leading_system_turn ⟨none, none⟩
      [.init 7, .message (replyingWith ⟨.str "hello", "m1", 5⟩) (.str "hi") (.str "7")]
      "7").2 [systemTurn, userTurn (.str "hi"), assistantTurn (.str "hello")] (by decide)).1⟩

/-! ## Sequences of successful messages -/

theorem sendAll_get (env : Env) (sessionId : JsVal) :
    ∀ (exchanges : List (JsVal × Completion)) (s : Store) (t : List Turn),
    (∀ e ∈ exchanges, e.1.truthy = true) → s.get sessionId = some t →
    (sendAll env sessionId exchanges s).get sessionId = some (t ++ exchangeTurns exchanges) := by
  intro exchanges
  induction exchanges with
  | nil => intro s t _ hg; simpa [sendAll, exchangeTurns] using hg
  | cons e rest ih =>
    intro s t hall hg
    obtain ⟨message, completion⟩ := e
    have hm : message.truthy = true := hall (message, completion) (by simp)
    have hnext := handleMessage_ok_get env (replyingWith completion) s message sessionId
      completion hm (fun _ => rfl)
    rw [hg] at hnext
    simp only [sendAll]
    rw [ih _ _ (fun e he => hall e (List.mem_cons_of_mem _ he)) hnext]
    simp [exchangeTurns]

theorem exchangeTurns_filter (exchanges : List (JsVal × Completion)) :
    (exchangeTurns exchanges).filter (fun m => m.role ≠ .system) = exchangeTurns exchanges := by
  induction exchanges with
  | nil => simp [exchangeTurns]
  | cons e rest ih =>
    obtain ⟨message, completion⟩ := e
    simp only [exchangeTurns]
    rw [List.filter_cons_of_pos (by simp [userTurn]),
      List.filter_cons_of_pos (by simp [assistantTurn]), ih]

theorem exchangeTurns_length (exchanges : List (JsVal × Completion)) :
    (exchangeTurns exchanges).length = 2 * exchanges.length := by
  induction exchanges with
  | nil => simp [exchangeTurns]
  | cons e rest ih =>
    obtain ⟨message, completion⟩ := e
    simp only [exchangeTurns, List.length_cons, ih]
    omega

theorem getHistory_of_get (s : Store) (id : String) (exchanges : List (JsVal × Completion))
    (h : s.get (.str id) = some ([systemTurn] ++ exchangeTurns exchanges)) :
    getHistory s id = .history (exchangeTurns exchanges) := by
  simp only [getHistory, h]
  rw [List.filter_append, exchangeTurns_filter]
  simp [systemTurn]

/-- C2 as stated fails: with no message sent (n = 0) on an identifier that was
never created, the history handler answers HTTP 404 and not the empty list. -/
theorem C2_unknown_id_without_message_not_found :
    sendAll ⟨none, none⟩ (.str "unknown-id") [] Store.empty = Store.empty ∧
    Store.empty.get (.str "unknown-id") = none ∧
    getHistory (sendAll ⟨none, none⟩ (.str "unknown-id") [] Store.empty) "unknown-id" =
      .fail 404 "Session not found" .undefined ∧
    getHistory (sendAll ⟨none, none⟩ (.str "unknown-id") [] Store.empty) "unknown-id" ≠
      .history (exchangeTurns []) := by
  decide

/-- C2 amended: after n successful messages with truthy texts sent under one
identifier, the history handler returns exactly the 2n turns user text,
assistant reply, in order, when the identifier was freshly minted by the init
handler (any n, the empty list for n = 0) and when the map held nothing under
it and n is at least 1. -/
theorem C2_history_after_successful_messages (env : Env)
    (exchanges : List (JsVal × Completion)) (hall : ∀ e ∈ exchanges, e.1.truthy = true) :
    (∀ (now : Nat) (s : Store),
      getHistory (sendAll env (.str (Nat.repr now)) exchanges (initSession now s).store)
        (Nat.repr now) = .history (exchangeTurns exchanges)) ∧
    (∀ (s : Store) (id : String), s.get (.str id) = none → exchanges ≠ [] →
      getHistory (sendAll env (.str id) exchanges s) id =
        .history (exchangeTurns exchanges)) ∧
    (exchangeTurns exchanges).length = 2 * exchanges.length := by
  refine ⟨?_, ?_, exchangeTurns_length exchanges⟩
  · intro now s
    apply getHistory_of_get
    exact sendAll_get env _ exchanges _ [systemTurn] hall (Store.get_set_self _ _ _)
  · intro s id hnone hne
    apply getHistory_of_get
    cases exchanges with
    | nil => exact absurd rfl hne
    | cons e rest =>
      obtain ⟨message, completion⟩ := e
      have hm : message.truthy = true := hall (message, completion) (by simp)
      have hfirst := handleMessage_ok_get env (replyingWith completion) s message (.str id)
        completion hm (fun _ => rfl)
      rw [hnone] at hfirst
      simp only [sendAll]
      rw [sendAll_get env _ rest _ _ (fun e he => hall e (List.mem_cons_of_mem _ he)) hfirst]
      simp [exchangeTurns]

/-- C2 amended, at one message on an identifier the map does not hold. -/
theorem C2_history_after_successful_messages_witness :
    (∀ e ∈ [(JsVal.str "hi", (⟨.str "hello", "m1", 5⟩ : Completion))], e.1.truthy = true) ∧
    getHistory (sendAll ⟨none, none⟩ (.str "unknown-id")
        [(JsVal.str "hi", (⟨.str "hello", "m1", 5⟩ : Completion))] Store.empty) "unknown-id" =
      .history (exchangeTurns [(JsVal.str "hi", (⟨.str "hello", "m1", 5⟩ : Completion))]) :=
  ⟨by decide,
    (C2_history_after_successful_messages ⟨none, none⟩
      [(JsVal.str "hi", (⟨.str "hello", "m1", 5⟩ : Completion))] (by decide)).2.1
      Store.empty "unknown-id" (by decide) (by decide)⟩

end ChatServer
